import Mathlib

/-!
Verification of the log-viewer engine: a shallow embedding of the log
filter/parser (src/filters/logFilter.ts), the content reader and watch
coordinator (src/ui/logWatchProvider.ts) and the glob watcher
(src/core/logWatcher.ts), together with theorems settling the spec claims.

JavaScript strings are modelled as Lean `String` (a list of Unicode scalar
values), `Uint8Array` values as `List Nat` with entries < 256, `RegExp`
search objects as predicates `String → Bool`, and `undefined`-able values
as `Option`.  Each regular expression of the source is embedded as an
explicit anchored matcher whose backtracking behaviour mirrors the
JavaScript engine on the concrete pattern (all patterns are analysed in
comments where backtracking matters).
-/

/-! ## Character classes of JavaScript regular expressions -/

/-- JS `\d`. -/
def jsDigit (c : Char) : Bool := '0' ≤ c && c ≤ '9'

/-- JS `\w` (`[A-Za-z0-9_]`). -/
def jsWord (c : Char) : Bool :=
  ('a' ≤ c && c ≤ 'z') || ('A' ≤ c && c ≤ 'Z') || jsDigit c || c = '_'

/-- JS `\s`, which is also the character set stripped by `String.prototype.trim`
(WhiteSpace ∪ LineTerminator): tab through carriage return, space, NBSP,
Ogham space, the U+2000 block, line/paragraph separators, narrow NBSP,
medium mathematical space, ideographic space and the BOM. -/
def jsSpace (c : Char) : Bool :=
  let n := c.toNat
  n = 0x20 || (0x9 ≤ n && n ≤ 0xD) || n = 0xA0 || n = 0x1680
    || (0x2000 ≤ n && n ≤ 0x200A) || n = 0x2028 || n = 0x2029 || n = 0x202F
    || n = 0x205F || n = 0x3000 || n = 0xFEFF

/-- JS `.` (without the `s` flag) matches everything except line terminators. -/
def jsDot (c : Char) : Bool :=
  !(c = '\n' || c = '\r' || c.toNat = 0x2028 || c.toNat = 0x2029)

/-! ## Matching primitives (anchored, explicit backtracking) -/

/-- Match exactly `n` characters satisfying `p` (regex `p{n}`);
returns the matched characters and the rest. -/
def takeExact : Nat → (Char → Bool) → List Char → Option (List Char × List Char)
  | 0, _, cs => some ([], cs)
  | n + 1, p, c :: cs =>
    if p c then (takeExact n p cs).map (fun m => (c :: m.1, m.2)) else none
  | _ + 1, _, [] => none

/-- Greedily match zero or more characters satisfying `p` (regex `p*`). -/
def takeMunch (p : Char → Bool) : List Char → List Char × List Char
  | c :: cs =>
    if p c then
      let m := takeMunch p cs
      (c :: m.1, m.2)
    else ([], c :: cs)
  | [] => ([], [])

/-- Greedily match one or more characters satisfying `p` (regex `p+`).
For every piece below, the character after the `p+`/`p*` piece never itself
satisfies `p`, so greedy matching without backtracking is exact. -/
def takeMunch1 (p : Char → Bool) (cs : List Char) : Option (List Char × List Char) :=
  match cs with
  | c :: rest =>
    if p c then
      let m := takeMunch p rest
      some (c :: m.1, m.2)
    else none
  | [] => none

/-- Match one literal character. -/
def expectChar (c : Char) : List Char → Option (List Char)
  | x :: rest => if x = c then some rest else none
  | [] => none

/-- Case-insensitive literal (regex `i` flag); returns the matched
characters in their original case, as a capture group would. -/
def stripCI : List Char → List Char → Option (List Char × List Char)
  | [], cs => some ([], cs)
  | p :: ps, c :: cs =>
    if c.toLower = p.toLower then (stripCI ps cs).map (fun m => (c :: m.1, m.2)) else none
  | _ :: _, [] => none

/-- Regex `(.*)$`: the message capture runs to the end of the line, and
succeeds only when no line terminator remains (JS `$` without the `m` flag
matches only at the very end, and `.` cannot cross a line terminator). -/
def dotRest (cs : List Char) : Option String :=
  if cs.all jsDot then some (String.mk cs) else none

/-! ## The level alternation `ERROR|FATAL|WARN(?:ING)?|INFO|DEBUG|TRACE` -/

/-- The alternatives in backtracking order.  `WARNING` before `WARN` models
the greedy optional `(?:ING)?`; since no two alternatives of the source
pattern share a first letter, this flat ordered list is equivalent to the
source alternation. -/
def levelAlts : List (List Char) :=
  ["ERROR".data, "FATAL".data, "WARNING".data, "WARN".data,
   "INFO".data, "DEBUG".data, "TRACE".data]

/-- Try the alternatives in order, each case-insensitively, backtracking
into the continuation `k` (the rest of the pattern) as a regex engine does. -/
def tryAlts {α : Type} (alts : List (List Char)) (cs : List Char)
    (k : List Char → Option α) : Option (List Char × α) :=
  match alts with
  | [] => none
  | a :: rest =>
    match stripCI a cs with
    | some m =>
      match k m.2 with
      | some v => some (m.1, v)
      | none => tryAlts rest cs k
    | none => tryAlts rest cs k

/-! ## The built-in log formats (`builtInFormats` of logFilter.ts)

Each matcher embeds one anchored source regex and returns its capture
groups 1..n, in order, or `none` when the line does not match. -/

/-- One character from a bracket class. -/
def expectClass (p : Char → Bool) : List Char → Option (Char × List Char)
  | c :: rest => if p c then some (c, rest) else none
  | [] => none

/-- `\d{2}:\d{2}:\d{2}`, the time-of-day piece shared by several formats;
returns the matched text and the rest. -/
def timeHMS (cs : List Char) : Option (List Char × List Char) := do
  let (t1, cs) ← takeExact 2 jsDigit cs
  let cs ← expectChar ':' cs
  let (t2, cs) ← takeExact 2 jsDigit cs
  let cs ← expectChar ':' cs
  let (t3, cs) ← takeExact 2 jsDigit cs
  pure (t1 ++ ':' :: t2 ++ ':' :: t3, cs)

/-- `[sep]\d{3}`: a separator from the class `p` followed by milliseconds. -/
def fracMillis (p : Char → Bool) (cs : List Char) : Option (List Char × List Char) := do
  let (dot, cs) ← expectClass p cs
  let (t4, cs) ← takeExact 3 jsDigit cs
  pure (dot :: t4, cs)

/-- `\d{2}\.\d{2}\.\d{4}`, the day-first date of the sling format. -/
def slingDate (cs : List Char) : Option (List Char × List Char) := do
  let (d1, cs) ← takeExact 2 jsDigit cs
  let cs ← expectChar '.' cs
  let (d2, cs) ← takeExact 2 jsDigit cs
  let cs ← expectChar '.' cs
  let (d3, cs) ← takeExact 4 jsDigit cs
  pure (d1 ++ '.' :: d2 ++ '.' :: d3, cs)

/-- `\*(\w+)\*`, the starred level of the sling format; returns the level
capture and the rest. -/
def starLevel (cs : List Char) : Option (List Char × List Char) := do
  let cs ← expectChar '*' cs
  let (lvl, cs) ← takeMunch1 jsWord cs
  let cs ← expectChar '*' cs
  pure (lvl, cs)

/-- `\[([^\]]+)\]`, a bracketed source; returns the capture and the rest. -/
def bracketed (cs : List Char) : Option (List Char × List Char) := do
  let cs ← expectChar '[' cs
  let (src, cs) ← takeMunch1 (fun c => c ≠ ']') cs
  let cs ← expectChar ']' cs
  pure (src, cs)

/-- `sling`: `^(\d{2}\.\d{2}\.\d{4}\s+\d{2}:\d{2}:\d{2}\.\d{3})\s+\*(\w+)\*\s+\[([^\]]+)\]\s+(.*)$`. -/
def slingMatch (line : String) : Option (List String) := do
  let (date, cs) ← slingDate line.data
  let (s1, cs) ← takeMunch1 jsSpace cs
  let (tod, cs) ← timeHMS cs
  let (frac, cs) ← fracMillis (fun c => c = '.') cs
  let (_, cs) ← takeMunch1 jsSpace cs
  let (lvl, cs) ← starLevel cs
  let (_, cs) ← takeMunch1 jsSpace cs
  let (src, cs) ← bracketed cs
  let (_, cs) ← takeMunch1 jsSpace cs
  let msg ← dotRest cs
  pure [String.mk (date ++ s1 ++ tod ++ frac), String.mk lvl, String.mk src, msg]

/-- The `\d{2}:\d{2}:\d{2}[.,]\d{3}\S*` tail of the ISO timestamp. -/
def isoTimeTail (cs : List Char) : Option (List Char × List Char) := do
  let (tod, cs) ← timeHMS cs
  let (frac, cs) ← fracMillis (fun c => c = '.' || c = ',') cs
  let tz := takeMunch (fun c => !jsSpace c) cs
  pure (tod ++ frac ++ tz.1, tz.2)

/-- The ISO timestamp piece `\d{4}-\d{2}-\d{2}[T ]\d{2}:\d{2}:\d{2}[.,]\d{3}\S*`
shared by the `iso` and `iso-plain` formats (with the `i` flag, `[T ]` also
matches a lowercase `t`).  Returns the captured text and the rest. -/
def isoTimestamp (cs : List Char) : Option (List Char × List Char) := do
  let (d1, cs) ← takeExact 4 jsDigit cs
  let cs ← expectChar '-' cs
  let (d2, cs) ← takeExact 2 jsDigit cs
  let cs ← expectChar '-' cs
  let (d3, cs) ← takeExact 2 jsDigit cs
  let (sep, cs) ← expectClass (fun c => c = 'T' || c = 't' || c = ' ') cs
  let (tail, cs) ← isoTimeTail cs
  pure (d1 ++ '-' :: d2 ++ '-' :: d3 ++ sep :: tail, cs)

/-- The `\s+\[([^\]]+)\]\s+(.*)$` continuation after the level of the `iso`
format; returns the source capture and the message capture. -/
def isoAfterLevel (cs : List Char) : Option (String × String) := do
  let (_, cs) ← takeMunch1 jsSpace cs
  let (src, cs) ← bracketed cs
  let (_, cs) ← takeMunch1 jsSpace cs
  let msg ← dotRest cs
  pure (String.mk src, msg)

/-- `iso`: `^(ISO-TS)\s+(LEVEL)\s+\[([^\]]+)\]\s+(.*)$` with the `i` flag. -/
def isoMatch (line : String) : Option (List String) := do
  let (ts, cs) ← isoTimestamp line.data
  let (_, cs) ← takeMunch1 jsSpace cs
  let (lvl, sm) ← tryAlts levelAlts cs isoAfterLevel
  pure [String.mk ts, String.mk lvl, sm.1, sm.2]

/-- The `\s+(\S+)\s+[-–]\s+(.*)$` continuation after the level of the
`iso-plain` format (the bracket class holds a hyphen and an en dash
U+2013); returns the source capture and the message capture. -/
def isoPlainAfterLevel (cs : List Char) : Option (String × String) := do
  let (_, cs) ← takeMunch1 jsSpace cs
  let (src, cs) ← takeMunch1 (fun c => !jsSpace c) cs
  let (_, cs) ← takeMunch1 jsSpace cs
  let (_, cs) ← expectClass (fun c => c = '-' || c.toNat = 0x2013) cs
  let (_, cs) ← takeMunch1 jsSpace cs
  let msg ← dotRest cs
  pure (String.mk src, msg)

/-- `iso-plain`: `^(ISO-TS)\s+(LEVEL)\s+(\S+)\s+[-–]\s+(.*)$` with the `i` flag. -/
def isoPlainMatch (line : String) : Option (List String) := do
  let (ts, cs) ← isoTimestamp line.data
  let (_, cs) ← takeMunch1 jsSpace cs
  let (lvl, sm) ← tryAlts levelAlts cs isoPlainAfterLevel
  pure [String.mk ts, String.mk lvl, sm.1, sm.2]

/-- The `\s+(.*)$` continuation after the level of the `logback` and
`simple`-like pieces; returns the message capture. -/
def spaceThenRest (cs : List Char) : Option String := do
  let (_, cs) ← takeMunch1 jsSpace cs
  dotRest cs

/-- `logback`: `^(\d{2}:\d{2}:\d{2}[.,]\d{3})\s+\[([^\]]+)\]\s+(LEVEL)\s+(.*)$`
with the `i` flag.  Its capture groups are timestamp, thread, level, message. -/
def logbackMatch (line : String) : Option (List String) := do
  let (tod, cs) ← timeHMS line.data
  let (frac, cs) ← fracMillis (fun c => c = '.' || c = ',') cs
  let (_, cs) ← takeMunch1 jsSpace cs
  let (thr, cs) ← bracketed cs
  let (_, cs) ← takeMunch1 jsSpace cs
  let (lvl, msg) ← tryAlts levelAlts cs spaceThenRest
  pure [String.mk (tod ++ frac), String.mk thr, String.mk lvl, msg]

/-- The tail `(?:\[\d+\])?:\s+` of the syslog process field: a greedy
optional `[digits]` (tried before its empty alternative), a colon, then
whitespace.  Returns the rest after the whitespace. -/
def syslogAfterProc (cs : List Char) : Option (List Char) :=
  (do
    let cs ← expectChar '[' cs
    let (_, cs) ← takeMunch1 jsDigit cs
    let cs ← expectChar ']' cs
    let cs ← expectChar ':' cs
    let (_, cs) ← takeMunch1 jsSpace cs
    pure cs)
  <|>
  (do
    let cs ← expectChar ':' cs
    let (_, cs) ← takeMunch1 jsSpace cs
    pure cs)

/-- The lazy `(\S+?)` of the syslog format: grow the capture one character
at a time (shortest first, as a lazy quantifier does), attempting
`syslogAfterProc` after each character.  Returns the capture and the rest
after the whole `(\S+?)(?:\[\d+\])?:\s+` piece. -/
def syslogProc (acc : List Char) : List Char → Option (List Char × List Char)
  | [] => none
  | c :: rest =>
    if jsSpace c then none
    else
      match syslogAfterProc rest with
      | some after => some (acc ++ [c], after)
      | none => syslogProc (acc ++ [c]) rest

/-- The timestamp `(\w{3}\s+\d{1,2}\s+\d{2}:\d{2}:\d{2})` of the syslog
format.  The greedy `\d{1,2}` is matched by trying two digits and falling
back to one, exactly as the engine does (a failed continuation after two
digits cannot be rescued by one digit, since `\s+` never matches a digit). -/
def syslogTimestamp (cs : List Char) : Option (List Char × List Char) := do
  let (mon, cs) ← takeExact 3 jsWord cs
  let (s1, cs) ← takeMunch1 jsSpace cs
  let (day, cs) ← (takeExact 2 jsDigit cs).orElse (fun _ => takeExact 1 jsDigit cs)
  let (s2, cs) ← takeMunch1 jsSpace cs
  let (tod, cs) ← timeHMS cs
  pure (mon ++ s1 ++ day ++ s2 ++ tod, cs)

/-- `syslog`: `^(\w{3}\s+\d{1,2}\s+\d{2}:\d{2}:\d{2})\s+(\S+)\s+(\S+?)(?:\[\d+\])?:\s+(.*)$`. -/
def syslogMatch (line : String) : Option (List String) := do
  let (ts, cs) ← syslogTimestamp line.data
  let (_, cs) ← takeMunch1 jsSpace cs
  let (host, cs) ← takeMunch1 (fun c => !jsSpace c) cs
  let (_, cs) ← takeMunch1 jsSpace cs
  let (proc, cs) ← syslogProc [] cs
  let msg ← dotRest cs
  pure [String.mk ts, String.mk host, String.mk proc, msg]

/-- The `\]?\s+(.*)$` continuation after the level of the `simple` format;
the greedy optional `]` backtracks into `\s+` when needed. -/
def simpleAfterLevel (cs : List Char) : Option String :=
  (do
    let cs ← expectChar ']' cs
    spaceThenRest cs)
  <|> spaceThenRest cs

/-- `simple`: `^\[?(LEVEL)\]?\s+(.*)$` with the `i` flag.  The optional
brackets are greedy; a consumed `[` can never be rescued by the empty
alternative (no level keyword starts with `[`), while the optional `]`
genuinely backtracks into `\s+`. -/
def simpleMatch (line : String) : Option (List String) := do
  let cs := line.data
  let cs1 := match cs with
    | '[' :: rest => rest
    | _ => cs
  let (lvl, msg) ← tryAlts levelAlts cs1 simpleAfterLevel
  pure [String.mk lvl, msg]

/-! ## logFilter.ts: data model -/

/-- `LogLevel` of logFilter.ts: `TRACE = 5, DEBUG = 4, INFO = 3, WARN = 2, ERROR = 1`. -/
inductive LogLevel where
  | TRACE
  | DEBUG
  | INFO
  | WARN
  | ERROR
deriving DecidableEq, BEq, Repr

/-- The numeric value of the TypeScript enum member. -/
def LogLevel.toNat : LogLevel → Nat
  | .TRACE => 5
  | .DEBUG => 4
  | .INFO => 3
  | .WARN => 2
  | .ERROR => 1

/-- `LogLine` of logFilter.ts. -/
structure LogLine where
  timestamp : String
  level : LogLevel
  source : String
  message : String
  originalLine : String
deriving DecidableEq, Repr

/-- `LogFilterOptions` of logFilter.ts.  `searchRegex?: RegExp` is modelled
as an optional predicate (`RegExp.prototype.test`). -/
structure LogFilterOptions where
  minLevel : LogLevel
  searchPattern : Option String
  searchRegex : Option (String → Bool)
  cleanFormat : Bool
  excludePatterns : Option (List String)
  includePatterns : Option (List String)

/-- `LogStats` of logFilter.ts. -/
structure LogStats where
  totalLines : Nat
  errorCount : Nat
  warnCount : Nat
  infoCount : Nat
  debugCount : Nat
  traceCount : Nat
  unparsedCount : Nat
deriving DecidableEq, Repr

/-- The capture-group index record of a `LogFormat` (`-1` meaning absent). -/
structure LogFormatGroups where
  timestamp : Int
  level : Int
  source : Int
  message : Int

/-- `LogFormat` of logFilter.ts: the compiled regex becomes a matcher
returning the capture groups 1..n. -/
structure LogFormat where
  name : String
  regexExec : String → Option (List String)
  groups : LogFormatGroups

/-- `builtInFormats` of logFilter.ts, in source order; `activeFormats` is
this list when no custom formats have been set. -/
def builtInFormats : List LogFormat :=
  [ { name := "sling", regexExec := slingMatch,
      groups := { timestamp := 1, level := 2, source := 3, message := 4 } },
    { name := "iso", regexExec := isoMatch,
      groups := { timestamp := 1, level := 2, source := 3, message := 4 } },
    { name := "iso-plain", regexExec := isoPlainMatch,
      groups := { timestamp := 1, level := 2, source := 3, message := 4 } },
    { name := "logback", regexExec := logbackMatch,
      groups := { timestamp := 1, level := 3, source := 2, message := 4 } },
    { name := "syslog", regexExec := syslogMatch,
      groups := { timestamp := 1, level := -1, source := 3, message := 4 } },
    { name := "simple", regexExec := simpleMatch,
      groups := { timestamp := -1, level := 1, source := -1, message := 2 } } ]

/-- JS `String.prototype.toUpperCase` restricted to the ASCII range used by
the level keywords. -/
def jsToUpper (s : String) : String := String.mk (s.data.map Char.toUpper)

/-- JS `String.prototype.toLowerCase` restricted likewise. -/
def jsToLower (s : String) : String := String.mk (s.data.map Char.toLower)

/-- `parseLevelString` of logFilter.ts. -/
def parseLevelString (levelStr : String) : LogLevel :=
  match jsToUpper levelStr with
  | "ERROR" => LogLevel.ERROR
  | "FATAL" => LogLevel.ERROR
  | "WARN" => LogLevel.WARN
  | "WARNING" => LogLevel.WARN
  | "INFO" => LogLevel.INFO
  | "DEBUG" => LogLevel.DEBUG
  | "TRACE" => LogLevel.TRACE
  | _ => LogLevel.INFO

/-- `match[i]` for a capture-group index `i ≥ 1` (our lists carry groups
starting at position 0 for group 1). -/
def matchGroup (m : List String) (i : Int) : String :=
  m.getD (i.toNat - 1) ""

/-- `parseLogLine` of logFilter.ts, generalised over the format list it
iterates (the source iterates `activeFormats`). -/
def parseLogLineWith : List LogFormat → String → Option LogLine
  | [], _ => none
  | format :: rest, line =>
    match format.regexExec line with
    | some m =>
      let g := format.groups
      some
        { timestamp := if g.timestamp > 0 then matchGroup m g.timestamp else ""
          level := if g.level > 0 then parseLevelString (matchGroup m g.level) else LogLevel.INFO
          source := if g.source > 0 then matchGroup m g.source else ""
          message := if g.message > 0 then matchGroup m g.message else line
          originalLine := line }
    | none => parseLogLineWith rest line

/-- `parseLogLine` with the default `activeFormats = builtInFormats`. -/
def parseLogLine (line : String) : Option LogLine :=
  parseLogLineWith builtInFormats line

/-! ## logFilter.ts: filtering -/

/-- JS `haystack.includes(needle)` (substring containment). -/
def isPrefixOfCL : List Char → List Char → Bool
  | [], _ => true
  | _ :: _, [] => false
  | a :: as, b :: bs => a = b && isPrefixOfCL as bs

/-- Substring occurrence test on character lists. -/
def isInfixOfCL (sub : List Char) : List Char → Bool
  | [] => sub.isEmpty
  | c :: rest => isPrefixOfCL sub (c :: rest) || isInfixOfCL sub rest

/-- JS `s.includes(sub)`. -/
def strIncludes (s sub : String) : Bool := isInfixOfCL sub.data s.data

/-- `isFilterOptionsActive` of logFilter.ts.  JS truthiness: an empty
search string and an empty pattern array are inactive. -/
def isFilterOptionsActive (options : LogFilterOptions) : Bool :=
  options.minLevel != LogLevel.TRACE
    || (match options.searchPattern with
        | some s => s != ""
        | none => false)
    || options.searchRegex.isSome
    || options.cleanFormat
    || (match options.excludePatterns with
        | some pats => pats.length > 0
        | none => false)
    || (match options.includePatterns with
        | some pats => pats.length > 0
        | none => false)

/-- The exclude-patterns loop of `shouldFilterLine`: some pattern occurs in
the message or the original line. -/
def excludeHit (parsed : LogLine) : Option (List String) → Bool
  | some pats =>
    pats.length > 0 &&
      pats.any (fun pat => strIncludes parsed.message pat || strIncludes parsed.originalLine pat)
  | none => false

/-- The include-patterns loop of `shouldFilterLine`: the list is non-empty
and no pattern occurs in the message or the original line. -/
def includeMiss (parsed : LogLine) : Option (List String) → Bool
  | some pats =>
    pats.length > 0 &&
      !(pats.any (fun pat => strIncludes parsed.message pat || strIncludes parsed.originalLine pat))
  | none => false

/-- The free-text search check of `shouldFilterLine`: a non-empty search
pattern that occurs (case-insensitively) in neither message nor line. -/
def searchMiss (parsed : LogLine) : Option String → Bool
  | some s =>
    s != "" &&
      (!(strIncludes (jsToLower parsed.message) (jsToLower s))
        && !(strIncludes (jsToLower parsed.originalLine) (jsToLower s)))
  | none => false

/-- The regex search check of `shouldFilterLine`: a regex that matches
neither message nor line. -/
def regexMiss (parsed : LogLine) : Option (String → Bool) → Bool
  | some test => !(test parsed.message) && !(test parsed.originalLine)
  | none => false

/-- `shouldFilterLine` of logFilter.ts: `true` means the line is filtered
out.  An unparsed line is kept unless clean-format is on; a parsed line is
dropped when its level is less severe than the minimum (numerically
greater), or when one of the pattern checks fails. -/
def shouldFilterLine (parsedLine : Option LogLine) (options : LogFilterOptions) : Bool :=
  match parsedLine with
  | none => options.cleanFormat
  | some parsed =>
    if parsed.level.toNat > options.minLevel.toNat then true
    else if excludeHit parsed options.excludePatterns then true
    else if includeMiss parsed options.includePatterns then true
    else if searchMiss parsed options.searchPattern then true
    else if regexMiss parsed options.searchRegex then true
    else false

/-- `formatLogLine` of logFilter.ts. -/
def formatLogLine (parsedLine : Option LogLine) (options : LogFilterOptions) : String :=
  match parsedLine with
  | none => ""
  | some parsed => if options.cleanFormat then parsed.message else parsed.originalLine

/-- Prepend a character to the first piece of a split result. -/
def consHead (c : Char) : List (List Char) → List (List Char)
  | [] => [[c]]
  | h :: t => (c :: h) :: t

/-- JS `content.split(/\r?\n/)` on character lists: a separator is `\r\n`
or a bare `\n`; a lone `\r` is ordinary content. -/
def splitLinesAux : List Char → List (List Char)
  | [] => [[]]
  | [c] => if c = '\n' then [[], []] else [[c]]
  | c1 :: c2 :: rest =>
    if c1 = '\n' then [] :: splitLinesAux (c2 :: rest)
    else if c1 = '\r' ∧ c2 = '\n' then [] :: splitLinesAux rest
    else consHead c1 (splitLinesAux (c2 :: rest))

/-- JS `content.split(/\r?\n/)`. -/
def splitLines (content : String) : List String :=
  (splitLinesAux content.data).map String.mk

/-- JS `!line.trim()`: every character is stripped whitespace. -/
def isBlank (line : String) : Bool := line.data.all jsSpace

/-- JS `array.join("\n")`. -/
def joinWithNl : List String → String
  | [] => ""
  | [x] => x
  | x :: y :: rest => x ++ "\n" ++ joinWithNl (y :: rest)

/-- The loop body of `filterLogContent`: skip blank lines, parse, skip
filtered lines, and push the formatted line only when it is truthy
(non-empty). -/
def filterLine (options : LogFilterOptions) (line : String) : Option String :=
  if isBlank line then none
  else
    let parsed := parseLogLine line
    if shouldFilterLine parsed options then none
    else
      let formatted := formatLogLine parsed options
      if formatted != "" then some formatted else none

/-- `filterLogContent` of logFilter.ts. -/
def filterLogContent (content : String) (options : LogFilterOptions) : String :=
  if !isFilterOptionsActive options then content
  else joinWithNl ((splitLines content).filterMap (filterLine options))

/-! ## logFilter.ts: statistics -/

/-- The all-zero `LogStats` initialiser of `getLogStats`. -/
def emptyStats : LogStats :=
  { totalLines := 0, errorCount := 0, warnCount := 0, infoCount := 0,
    debugCount := 0, traceCount := 0, unparsedCount := 0 }

/-- The per-level increment of the `getLogStats` switch. -/
def bumpLevel (stats : LogStats) : LogLevel → LogStats
  | .ERROR => { stats with errorCount := stats.errorCount + 1 }
  | .WARN => { stats with warnCount := stats.warnCount + 1 }
  | .INFO => { stats with infoCount := stats.infoCount + 1 }
  | .DEBUG => { stats with debugCount := stats.debugCount + 1 }
  | .TRACE => { stats with traceCount := stats.traceCount + 1 }

/-- The loop body of `getLogStats`. -/
def statsStep (stats : LogStats) (line : String) : LogStats :=
  if isBlank line then stats
  else
    let stats := { stats with totalLines := stats.totalLines + 1 }
    match parseLogLine line with
    | none => { stats with unparsedCount := stats.unparsedCount + 1 }
    | some parsed => bumpLevel stats parsed.level

/-- `getLogStats` of logFilter.ts. -/
def getLogStats (content : String) : LogStats :=
  (splitLines content).foldl statsStep emptyStats

/-! ## UTF-8 (TextEncoder / TextDecoder of logWatchProvider.ts)

Bytes are `Nat` values < 256. -/

/-- UTF-8 encoding of one Unicode scalar value. -/
def utf8EncodeChar (c : Char) : List Nat :=
  let n := c.toNat
  if n < 0x80 then [n]
  else if n < 0x800 then
    [0xC0 + n / 64, 0x80 + n % 64]
  else if n < 0x10000 then
    [0xE0 + n / 4096, 0x80 + n / 64 % 64, 0x80 + n % 64]
  else
    [0xF0 + n / 262144, 0x80 + n / 4096 % 64, 0x80 + n / 64 % 64, 0x80 + n % 64]

/-- `new TextEncoder().encode(s)` (the encoder is always UTF-8). -/
def utf8Encode (s : String) : List Nat := (s.data.map utf8EncodeChar).flatten

/-- A UTF-8 continuation byte. -/
def contByte (b : Nat) : Bool := 0x80 ≤ b && b < 0xC0

/-- The value carried by a continuation byte. -/
def contVal (b : Nat) : Nat := b % 64

/-- The replacement character U+FFFD emitted for invalid sequences. -/
def replChar : Char := Char.ofNat 0xFFFD

/-- `new TextDecoder("utf-8").decode(bytes)`: decode UTF-8, emitting
U+FFFD for an invalid or overlong sequence and resynchronising at the
following byte.  The fuel argument (instantiated with the byte count, an
upper bound on the number of decoded characters) only serves structural
recursion; every step consumes at least one byte, so it is never
exhausted. -/
def utf8DecodeGo : Nat → List Nat → List Char
  | 0, _ => []
  | _ + 1, [] => []
  | fuel + 1, b :: rest =>
    if b < 0x80 then Char.ofNat b :: utf8DecodeGo fuel rest
    else if b < 0xC2 then replChar :: utf8DecodeGo fuel rest
    else if b < 0xE0 then
      match rest with
      | b1 :: rest2 =>
        if contByte b1 then Char.ofNat ((b - 0xC0) * 64 + contVal b1) :: utf8DecodeGo fuel rest2
        else replChar :: utf8DecodeGo fuel (b1 :: rest2)
      | [] => [replChar]
    else if b < 0xF0 then
      match rest with
      | b1 :: b2 :: rest2 =>
        if contByte b1 && contByte b2 then
          let n := (b - 0xE0) * 4096 + contVal b1 * 64 + contVal b2
          if 0x800 ≤ n && !(0xD800 ≤ n && n < 0xE000) then
            Char.ofNat n :: utf8DecodeGo fuel rest2
          else replChar :: utf8DecodeGo fuel (b1 :: b2 :: rest2)
        else replChar :: utf8DecodeGo fuel (b1 :: b2 :: rest2)
      | _ => [replChar]
    else if b < 0xF5 then
      match rest with
      | b1 :: b2 :: b3 :: rest2 =>
        if contByte b1 && contByte b2 && contByte b3 then
          let n := (b - 0xF0) * 262144 + contVal b1 * 4096 + contVal b2 * 64 + contVal b3
          if 0x10000 ≤ n && n < 0x110000 then
            Char.ofNat n :: utf8DecodeGo fuel rest2
          else replChar :: utf8DecodeGo fuel (b1 :: b2 :: b3 :: rest2)
        else replChar :: utf8DecodeGo fuel (b1 :: b2 :: b3 :: rest2)
      | _ => [replChar]
    else replChar :: utf8DecodeGo fuel rest

/-- `new TextDecoder("utf-8").decode(bytes)` as a `String`. -/
def utf8Decode (bytes : List Nat) : String := String.mk (utf8DecodeGo bytes.length bytes)

/-! ## logWatchProvider.ts: content reading -/

/-- JS `content.split("\n")` on character lists (a literal split: only
`\n` separates; `\r` is ordinary content here). -/
def splitNlAux : List Char → List (List Char)
  | [] => [[]]
  | c :: rest =>
    if c = '\n' then [] :: splitNlAux rest else consHead c (splitNlAux rest)

/-- JS `content.split("\n")`. -/
def splitNl (content : String) : List String := (splitNlAux content.data).map String.mk

/-- `tailByLines` of logWatchProvider.ts: with a positive bound and more
lines than the bound, keep only the last `maxLines` lines
(`lines.slice(-maxLines).join("\n")`); otherwise return the content
unchanged. -/
def tailByLines (content : String) (maxLines : Int) : String :=
  if maxLines ≤ 0 then content
  else
    let lines := splitNl content
    if (lines.length : Int) ≤ maxLines then content
    else joinWithNl (lines.drop (lines.length - maxLines.toNat))

/-- `readFileContent` of logWatchProvider.ts over a file snapshot given as
its byte content.  `decoder` is the optional iconv-lite decoder stream
(its `write`+`end` round modelled as one function on the read bytes);
absent, `TextDecoder("utf-8")` is used.  `tailLines` is
`configSvc.getEffectiveTailLines()`.  A non-positive span returns an empty
array before any decoding. -/
def readFileContent (file : List Nat) (decoder : Option (List Nat → String))
    (offset : Option Int) (tailLines : Int) : List Nat :=
  -- `if (!offset || offset < 0) { offset = 0; }` — 0 is falsy in JS
  let off : Int := match offset with
    | none => 0
    | some o => if o ≤ 0 then 0 else o
  let partSize : Int := (file.length : Int) - off
  if partSize ≤ 0 then []
  else
    let buff := file.drop off.toNat
    let text := match decoder with
      | some d => d buff
      | none => utf8Decode buff
    utf8Encode (tailByLines text tailLines)

/-! ## logWatchProvider.ts: the watch coordinator -/

/-- `uint8ArrayEquals` of logWatchProvider.ts: `undefined` equals only
itself (reference equality of `a === b` when one side is missing),
otherwise length and bytes are compared. -/
def uint8ArrayEquals : Option (List Nat) → Option (List Nat) → Bool
  | none, none => true
  | none, some _ => false
  | some _, none => false
  | some a, some b => a.length = b.length && (List.zip a b).all (fun p => p.1 = p.2)

/-- The timer fields of a `SimpleGlobWatcher` (logWatcher.ts): the pending
file tick and list tick reschedules, `none` when no timer is pending. -/
structure SimpleGlobWatcher where
  fileTimer : Option Nat
  globTimer : Option Nat

/-- `SimpleGlobWatcher.dispose`: `clearTimeout` on both pending timers. -/
def SimpleGlobWatcher.dispose (_w : SimpleGlobWatcher) : SimpleGlobWatcher :=
  { fileTimer := none, globTimer := none }

/-- `WatchStateInternal` of logWatchProvider.ts.  `watcher` is `none` when
the watch is stopped; `decoder` is the per-state encoding decoder;
timestamps are clock readings. -/
structure WatchStateInternal where
  watcher : Option SimpleGlobWatcher
  decoder : Option (List Nat → String)
  lastFileName : Option String
  offset : Option Int
  bytes : Option (List Nat)
  rawBytes : Option (List Nat)
  createdOn : Nat
  lastChangedOn : Nat

/-- The public `WatchState` snapshot of logWatchProvider.ts. -/
structure WatchState where
  running : Bool
  lastFileName : Option String
  bytes : Option (List Nat)
  rawBytes : Option (List Nat)
  createdOn : Nat
  lastChangedOn : Nat

/-- `createWatchState` of logWatchProvider.ts (`running: !!w.watcher`). -/
def createWatchState (w : WatchStateInternal) : WatchState :=
  { running := w.watcher.isSome, lastFileName := w.lastFileName,
    bytes := w.bytes, rawBytes := w.rawBytes,
    createdOn := w.createdOn, lastChangedOn := w.lastChangedOn }

/-- `EventType` of logWatchProvider.ts. -/
inductive EventType where
  | Start
  | ContentChange
  | FileChange
  | Stop
deriving DecidableEq, Repr

/-- The environment a `checkChange` call runs in: the filesystem snapshot
(content by file name), the effective tail-line bound and filter options
from the `ConfigService` (the latter as produced by
`convertFilterOptions`), and the clock reading taken by `new Date()`. -/
structure CheckEnv where
  fs : String → List Nat
  tailLines : Int
  filterOptions : LogFilterOptions
  now : Nat

/-- `applyFilters` of logWatchProvider.ts: decode UTF-8, filter, re-encode. -/
def applyFilters (content : List Nat) (filterOptions : LogFilterOptions) : List Nat :=
  utf8Encode (filterLogContent (utf8Decode content) filterOptions)

/-- The `newRawBytes` local of `checkChange`: read the file with the
state's *current* offset (the filename-change reset happens after this
read), or `undefined` when no file is selected. -/
def computeNewRawBytes (env : CheckEnv) (state : WatchStateInternal)
    (filename : Option String) : Option (List Nat) :=
  filename.map (fun f => readFileContent (env.fs f) state.decoder state.offset env.tailLines)

/-- The `newBytes` local of `checkChange`: the filtered bytes. -/
def computeNewBytes (env : CheckEnv) (state : WatchStateInternal)
    (filename : Option String) : Option (List Nat) :=
  (computeNewRawBytes env state filename).map (fun rb => applyFilters rb env.filterOptions)

/-- `checkChange` of logWatchProvider.ts: read and filter, record a
filename change (resetting the offset for *subsequent* reads), record a
content change when the filtered bytes differ from the cached filtered
bytes, and on any change bump the timestamp and fire one event.  Returns
the updated state and the fired event. -/
def checkChange (env : CheckEnv) (state : WatchStateInternal)
    (filename : Option String) : WatchStateInternal × Option EventType :=
  let newRawBytes := computeNewRawBytes env state filename
  let newBytes := computeNewBytes env state filename
  -- check if filename changed
  let state1 := if state.lastFileName = filename then state
    else { state with lastFileName := filename, offset := none }
  let changeType1 : Option EventType :=
    if state.lastFileName = filename then none else some EventType.FileChange
  -- check if content changed (`state.bytes` is unchanged by the step above)
  let state2 := if uint8ArrayEquals state.bytes newBytes then state1
    else { state1 with rawBytes := newRawBytes, bytes := newBytes }
  let changeType2 := if uint8ArrayEquals state.bytes newBytes then changeType1
    else some (changeType1.getD EventType.ContentChange)
  match changeType2 with
  | some t => ({ state2 with lastChangedOn := env.now }, some t)
  | none => (state2, none)

/-- `stopWatch` of logWatchProvider.ts, on the runtime state of one watch:
when a watcher is running, dispose it (cancelling its timers), clear the
`watcher` field and fire the Stop event; otherwise do nothing.  The
`bytes`/`rawBytes`/`offset`/`lastFileName` fields are left as they are. -/
def stopWatch (state : WatchStateInternal) : WatchStateInternal × Option EventType :=
  match state.watcher with
  | some w =>
    let _disposed := w.dispose
    ({ state with watcher := none }, some EventType.Stop)
  | none => (state, none)

/-! ## Named option sets -/

/-- Filter options whose only (possibly) active criterion is the minimum
severity; with `minLevel = TRACE` (the meaning of the `ALL` configuration
value under `convertFilterOptions`) every criterion is at its neutral
default. -/
def levelOnlyOptions (minLevel : LogLevel) : LogFilterOptions :=
  { minLevel := minLevel, searchPattern := none, searchRegex := none,
    cleanFormat := false, excludePatterns := none, includePatterns := none }

/-- The neutral option set: ALL/TRACE severity, no patterns, clean-format off. -/
def neutralOptions : LogFilterOptions := levelOnlyOptions LogLevel.TRACE

/-- Options with clean-format as the only active criterion. -/
def cleanOnlyOptions : LogFilterOptions :=
  { neutralOptions with cleanFormat := true }

/-- The bucket-partition invariant of `LogStats`: the total is the sum of
the five severity buckets plus the unparsed bucket. -/
def statsBalanced (s : LogStats) : Prop :=
  s.totalLines = s.errorCount + s.warnCount + s.infoCount + s.debugCount
    + s.traceCount + s.unparsedCount

/-- A check environment whose glob has stopped matching any file: the
coordinator is notified with no filename. -/
def cexEnvA : CheckEnv :=
  { fs := fun _ => [], tailLines := 0, filterOptions := neutralOptions, now := 7 }

/-- A watch state with a recorded file name and no cached bytes. -/
def cexStateA : WatchStateInternal :=
  { watcher := none, decoder := none, lastFileName := some "a", offset := none,
    bytes := none, rawBytes := none, createdOn := 0, lastChangedOn := 0 }

/-- A filesystem where every file holds the two bytes `X Y`, and a state
whose offset is 1 carried over from the previous file. -/
def cexEnvB : CheckEnv :=
  { fs := fun _ => [88, 89], tailLines := 0, filterOptions := neutralOptions, now := 5 }

/-- A watch state on file `a` with a non-zero read offset (as left behind
by `clearContents`). -/
def cexStateB : WatchStateInternal :=
  { watcher := none, decoder := none, lastFileName := some "a", offset := some 1,
    bytes := none, rawBytes := none, createdOn := 0, lastChangedOn := 0 }

/-- A running watch with pending timers and cached bytes. -/
def cexStateC : WatchStateInternal :=
  { watcher := some { fileTimer := some 1, globTimer := some 2 }, decoder := none,
    lastFileName := some "a", offset := none, bytes := some [65], rawBytes := some [66],
    createdOn := 0, lastChangedOn := 0 }

/-! ## Theorems -/

/-- C1: with every criterion at its neutral default the filter returns the
content unchanged, byte for byte, without any per-line processing. -/
theorem identity_filter (content : String) :
    filterLogContent content neutralOptions = content := rfl

/-- C5 (Scenario A): the sling-format line is parsed and clean format
emits exactly its message field. -/
theorem sling_clean_scenario :
    filterLogContent "13.02.2026 16:04:23.089 *INFO* [FelixLogListener] Events.Service UNREGISTERING"
      cleanOnlyOptions = "Events.Service UNREGISTERING" := by decide

/-- C3 evaluated at the failing input: the unparsed line `garbage text` is
retained when no criterion is active (the short-circuit), and dropped in
clean-format mode, as the claim says — but it is also dropped with
clean-format off as soon as any other criterion (here a WARN threshold)
makes the filter active, because `formatLogLine` returns the empty string
for every unparsed line and empty strings are never pushed. -/
theorem unparsed_drop_eval :
    filterLogContent "garbage text" neutralOptions = "garbage text"
    ∧ filterLogContent "garbage text" cleanOnlyOptions = ""
    ∧ filterLogContent "garbage text" (levelOnlyOptions LogLevel.WARN) = "" := by
  refine ⟨rfl, by decide, by decide⟩

/-- Every format of `parseLogLineWith` stores the raw line in
`originalLine`. -/
theorem parseLogLineWith_originalLine (formats : List LogFormat) (line : String)
    (p : LogLine) (h : parseLogLineWith formats line = some p) : p.originalLine = line := by
  induction formats with
  | nil => simp [parseLogLineWith] at h
  | cons f rest ih =>
    rw [parseLogLineWith] at h
    cases hm : f.regexExec line with
    | some m =>
      rw [hm] at h
      cases h
      rfl
    | none =>
      rw [hm] at h
      exact ih h

/-- The enum values of `LogLevel` are at most `TRACE = 5`. -/
theorem levelToNat_le (l : LogLevel) : l.toNat ≤ 5 := by
  cases l <;> simp [LogLevel.toNat]

/-- A chunk without `\n` is a single line for `split(/\r?\n/)`. -/
theorem splitLinesAux_no_nl : ∀ cs : List Char, '\n' ∉ cs → splitLinesAux cs = [cs]
  | [], _ => rfl
  | [c], h => by
    have hc : ¬('\n' = c) := by simpa using h
    rw [splitLinesAux, if_neg (Ne.symm hc)]
  | c1 :: c2 :: rest, h => by
    have h1 : ¬('\n' = c1) := by simp_all
    have h2 : ¬('\n' = c2) := by simp_all
    rw [splitLinesAux, if_neg (Ne.symm h1), if_neg (by simp [Ne.symm h2])]
    rw [splitLinesAux_no_nl (c2 :: rest) (by simp_all)]
    rfl

/-- A string without `\n` splits to itself. -/
theorem splitLines_no_nl (L : String) (h : '\n' ∉ L.data) : splitLines L = [L] := by
  rw [splitLines, splitLinesAux_no_nl L.data h]
  rfl

/-- With only the severity criterion set, `shouldFilterLine` on a parsed
line is exactly the level comparison. -/
theorem shouldFilterLine_levelOnly (p : LogLine) (T : LogLevel) :
    shouldFilterLine (some p) (levelOnlyOptions T) = decide (p.level.toNat > T.toNat) := by
  by_cases hl : p.level.toNat > T.toNat <;>
    simp [shouldFilterLine, levelOnlyOptions, excludeHit, includeMiss, searchMiss, regexMiss, hl]

/-- A non-blank line is not the empty string. -/
theorem ne_empty_of_not_blank (L : String) (h : isBlank L = false) : L ≠ "" := by
  intro he
  rw [he] at h
  exact absurd h (by decide)

/-- C2: under filter options whose only active criterion is the minimum
severity `T`, a non-blank parsed line is retained exactly when its
severity is at least as severe as `T` (numerically `≤` in the enum). -/
theorem severity_monotonic (L : String) (T : LogLevel) (p : LogLine)
    (hnl : '\n' ∉ L.data) (hblank : isBlank L = false)
    (hp : parseLogLine L = some p) :
    filterLogContent L (levelOnlyOptions T) = if p.level.toNat ≤ T.toNat then L else "" := by
  have horig : p.originalLine = L := parseLogLineWith_originalLine _ _ _ hp
  by_cases hT : T = LogLevel.TRACE
  · subst hT
    rw [if_pos (by simpa [LogLevel.toNat] using levelToNat_le p.level)]
    rfl
  · have hact : isFilterOptionsActive (levelOnlyOptions T) = true := by
      cases T <;> first
        | exact absurd rfl hT
        | decide
    have hfl : filterLine (levelOnlyOptions T) L =
        (if p.level.toNat ≤ T.toNat then some L else none) := by
      rw [filterLine, if_neg (by simp [hblank])]
      simp only [hp, shouldFilterLine_levelOnly]
      by_cases hlev : p.level.toNat > T.toNat
      · simp [hlev, not_le.mpr hlev]
      · have hle := not_lt.mp hlev
        simp [hlev, hle, formatLogLine, levelOnlyOptions, horig, bne_iff_ne,
          ne_empty_of_not_blank L hblank]
    rw [filterLogContent, hact]
    simp only [Bool.not_true, Bool.false_eq_true, if_false]
    rw [splitLines_no_nl L hnl, List.filterMap_cons, hfl, List.filterMap_nil]
    by_cases hle : p.level.toNat ≤ T.toNat
    · rw [if_pos hle, if_pos hle]
      rfl
    · rw [if_neg hle, if_neg hle]
      rfl

/-- Witness for C2: with threshold WARN an ERROR line is retained and an
INFO line is dropped; with threshold INFO a TRACE line is dropped. -/
theorem severity_monotonic_witness :
    filterLogContent "2024-01-02 03:04:05.678 ERROR [main] boom"
        (levelOnlyOptions LogLevel.WARN) = "2024-01-02 03:04:05.678 ERROR [main] boom"
    ∧ filterLogContent "2024-01-02 03:04:05.678 INFO [main] hello"
        (levelOnlyOptions LogLevel.WARN) = ""
    ∧ filterLogContent "2024-01-02 03:04:05.678 TRACE [main] x"
        (levelOnlyOptions LogLevel.INFO) = "" := by
  refine ⟨?_, ?_, ?_⟩
  · have h := severity_monotonic "2024-01-02 03:04:05.678 ERROR [main] boom" LogLevel.WARN
      { timestamp := "2024-01-02 03:04:05.678", level := .ERROR, source := "main",
        message := "boom", originalLine := "2024-01-02 03:04:05.678 ERROR [main] boom" }
      (by decide) (by decide) (by decide)
    simpa [LogLevel.toNat] using h
  · have h := severity_monotonic "2024-01-02 03:04:05.678 INFO [main] hello" LogLevel.WARN
      { timestamp := "2024-01-02 03:04:05.678", level := .INFO, source := "main",
        message := "hello", originalLine := "2024-01-02 03:04:05.678 INFO [main] hello" }
      (by decide) (by decide) (by decide)
    simpa [LogLevel.toNat] using h
  · have h := severity_monotonic "2024-01-02 03:04:05.678 TRACE [main] x" LogLevel.INFO
      { timestamp := "2024-01-02 03:04:05.678", level := .TRACE, source := "main",
        message := "x", originalLine := "2024-01-02 03:04:05.678 TRACE [main] x" }
      (by decide) (by decide) (by decide)
    simpa [LogLevel.toNat] using h

/-- One step of the `getLogStats` loop preserves the partition: a blank
line touches nothing, and each counted line bumps the total and exactly
one bucket. -/
theorem statsStep_balanced (s : LogStats) (line : String) (h : statsBalanced s) :
    statsBalanced (statsStep s line) := by
  unfold statsBalanced at h ⊢
  rw [statsStep]
  by_cases hb : isBlank line
  · simpa [hb] using h
  · simp only [hb, Bool.false_eq_true, if_false]
    cases hp : parseLogLine line with
    | none =>
      simp
      omega
    | some p =>
      obtain ⟨-, lvl, -, -, -⟩ := p
      cases lvl <;> simp [bumpLevel] <;> omega

/-- The `getLogStats` fold preserves the partition from any start. -/
theorem foldl_statsBalanced :
    ∀ (lines : List String) (s : LogStats), statsBalanced s →
      statsBalanced (lines.foldl statsStep s)
  | [], _, h => h
  | l :: ls, s, h => foldl_statsBalanced ls (statsStep s l) (statsStep_balanced s l h)

/-- C10: on every input the statistics partition the counted lines:
`totalLines` equals the sum of the five severity buckets and the unparsed
bucket (blank lines are counted nowhere, every counted line exactly once;
`getLogStats` takes no filter options, so the counts cannot depend on
them). -/
theorem stats_partition (content : String) :
    (getLogStats content).totalLines =
      (getLogStats content).errorCount + (getLogStats content).warnCount
      + (getLogStats content).infoCount + (getLogStats content).debugCount
      + (getLogStats content).traceCount + (getLogStats content).unparsedCount :=
  foldl_statsBalanced (splitLines content) emptyStats rfl

/-- A chunk without `\n` is a single piece for `split("\n")`. -/
theorem splitNlAux_no_nl : ∀ cs : List Char, '\n' ∉ cs → splitNlAux cs = [cs]
  | [], _ => rfl
  | c :: rest, h => by
    have hc : ¬(c = '\n') := fun hh => by simp_all [hh]
    rw [splitNlAux, if_neg hc, splitNlAux_no_nl rest (by simp_all)]
    rfl

/-- `split("\n")` takes off the piece before the first `\n`. -/
theorem splitNlAux_append (xs ys : List Char) (hx : '\n' ∉ xs) :
    splitNlAux (xs ++ '\n' :: ys) = xs :: splitNlAux ys := by
  induction xs with
  | nil =>
    rw [List.nil_append, splitNlAux, if_pos rfl]
  | cons c rest ih =>
    have hc : ¬(c = '\n') := fun hh => by simp_all [hh]
    rw [List.cons_append, splitNlAux, if_neg hc, ih (by simp_all)]
    rfl

/-- `split("\n")` is a left inverse of `join("\n")` on non-empty line
lists whose elements contain no `\n`. -/
theorem splitNl_joinWithNl :
    ∀ L : List String, L ≠ [] → (∀ l ∈ L, '\n' ∉ l.data) →
      splitNl (joinWithNl L) = L
  | [], hne, _ => absurd rfl hne
  | [x], _, h => by
    rw [joinWithNl, splitNl, splitNlAux_no_nl x.data (h x (by simp))]
    rfl
  | x :: y :: rest, _, h => by
    rw [joinWithNl, splitNl]
    have hdata : (x ++ "\n" ++ joinWithNl (y :: rest)).data
        = x.data ++ '\n' :: (joinWithNl (y :: rest)).data := by
      simp [String.data_append]
    rw [hdata, splitNlAux_append _ _ (h x (by simp)), List.map_cons]
    have htail := splitNl_joinWithNl (y :: rest) (by simp) (fun l hl => h l (by simp [hl]))
    rw [splitNl] at htail
    rw [htail]

/-- C4: the tail bound.  For any non-empty list of lines (none containing
`\n`): with a positive bound `N` smaller than the number of lines, the
result is exactly the last `N` lines joined by `\n`, in order; a zero or
negative bound returns any content unchanged. -/
theorem tail_bound (L : List String) (N : Int) (hne : L ≠ [])
    (hnl : ∀ l ∈ L, '\n' ∉ l.data) :
    (0 < N → N < (L.length : Int) →
      tailByLines (joinWithNl L) N = joinWithNl (L.drop (L.length - N.toNat)))
    ∧ (N ≤ 0 → ∀ c, tailByLines c N = c) := by
  constructor
  · intro hpos hlt
    rw [tailByLines, if_neg (by omega), splitNl_joinWithNl L hne hnl]
    rw [if_neg (by omega)]
  · intro hle c
    rw [tailByLines, if_pos hle]

/-- Witness for C4: lines `L1..L10` with tailLines 3 give `L8,L9,L10`
joined by `\n`, and a non-positive bound leaves content unchanged. -/
theorem tail_bound_witness :
    tailByLines "L1\nL2\nL3\nL4\nL5\nL6\nL7\nL8\nL9\nL10" 3 = "L8\nL9\nL10"
    ∧ tailByLines "abc\ndef" 0 = "abc\ndef" := by
  constructor
  · exact ((tail_bound ["L1", "L2", "L3", "L4", "L5", "L6", "L7", "L8", "L9", "L10"] 3
      (by decide) (by decide)).1 (by decide) (by decide)).trans (by decide)
  · exact (tail_bound ["x"] 0 (by decide) (by decide)).2 (by decide) "abc\ndef"

/-- Reading with an explicit offset is reading the suffix of the file from
that offset (a negative or zero offset is treated as 0, i.e. as unset). -/
theorem readFileContent_some_drop (file : List Nat) (dec : Option (List Nat → String))
    (tailN : Int) (o : Int) :
    readFileContent file dec (some o) tailN
      = readFileContent (file.drop o.toNat) dec none tailN := by
  simp only [readFileContent]
  by_cases ho : o ≤ 0
  · simp [ho, Int.toNat_of_nonpos ho]
  · simp only [if_neg ho]
    by_cases hsz : (file.length : Int) - o ≤ 0
    · rw [if_pos hsz, if_pos (by simp; omega)]
    · rw [if_neg hsz, if_neg (by simp; omega)]
      simp

/-- Reading at or past end-of-file returns the empty array for every
decoder (the decoder is never consulted). -/
theorem readFileContent_empty (file : List Nat) (dec : Option (List Nat → String))
    (tailN : Int) (o : Int) (h : (file.length : Int) ≤ o) :
    readFileContent file dec (some o) tailN = [] := by
  simp only [readFileContent]
  by_cases ho : o ≤ 0
  · rw [if_pos ho, if_pos (by omega)]
  · rw [if_neg ho, if_pos (by omega)]

/-- C6: the read covers exactly the bytes from the (normalised) offset to
end-of-file — it equals a fresh read of the suffix from that offset; a
span that is empty or negative yields empty content for every decoder;
clearing (offset := current size) then reading yields empty content; and
after appending bytes `B` past a cleared offset, the next read is exactly
a fresh read of `B` alone. -/
theorem read_offset_span (file B : List Nat) (dec : Option (List Nat → String))
    (tailN : Int) (o : Int) :
    readFileContent file dec (some o) tailN = readFileContent (file.drop o.toNat) dec none tailN
    ∧ ((file.length : Int) ≤ o → readFileContent file dec (some o) tailN = [])
    ∧ readFileContent file dec (some (file.length : Int)) tailN = []
    ∧ readFileContent (file ++ B) dec (some (file.length : Int)) tailN
        = readFileContent B dec none tailN := by
  refine ⟨readFileContent_some_drop file dec tailN o,
    fun h => readFileContent_empty file dec tailN o h,
    readFileContent_empty file dec tailN _ (le_refl _), ?_⟩
  rw [readFileContent_some_drop]
  congr 1
  simp

/-- Witness for C6: a cleared two-byte file reads empty, and after
appending one byte the next read equals a fresh read of that byte. -/
theorem read_offset_span_witness :
    readFileContent [72, 105] none (some 2) 0 = []
    ∧ readFileContent ([72, 105] ++ [33]) none (some 2) 0 = readFileContent [33] none none 0 := by
  constructor
  · exact (read_offset_span [72, 105] [] none 0 2).2.1 (by decide)
  · simpa using (read_offset_span [72, 105] [33] none 0 2).2.2.2

/-- Counterexample for C7: handling a filename-change notification whose
newly computed filtered bytes are identical to the cached filtered bytes
still fires an event and still bumps the last-changed timestamp. -/
theorem change_emit_cex :
    uint8ArrayEquals cexStateA.bytes (computeNewBytes cexEnvA cexStateA none) = true
    ∧ (checkChange cexEnvA cexStateA none).2 = some EventType.FileChange
    ∧ (checkChange cexEnvA cexStateA none).1.lastChangedOn ≠ cexStateA.lastChangedOn := by
  refine ⟨rfl, rfl, by decide⟩

/-- C7 (amended): for a notification that keeps the same filename, the
coordinator emits an event, updates its byte caches and bumps the
timestamp exactly when the newly computed filtered bytes differ from the
cached filtered bytes, and leaves the state untouched otherwise; for a
notification whose filename differs from the recorded one, a file-change
event is emitted and the timestamp bumped regardless of the byte
comparison (the byte caches still update only on a difference). -/
theorem change_emit_gating (env : CheckEnv) (state : WatchStateInternal)
    (filename : Option String) :
    (filename = state.lastFileName →
      (uint8ArrayEquals state.bytes (computeNewBytes env state filename) = true →
        checkChange env state filename = (state, none))
      ∧ (uint8ArrayEquals state.bytes (computeNewBytes env state filename) = false →
        checkChange env state filename =
          ({ state with rawBytes := computeNewRawBytes env state filename,
                        bytes := computeNewBytes env state filename,
                        lastChangedOn := env.now }, some EventType.ContentChange)))
    ∧ (filename ≠ state.lastFileName →
      (checkChange env state filename).2 = some EventType.FileChange
      ∧ (checkChange env state filename).1.lastChangedOn = env.now) := by
  constructor
  · intro hfn
    subst hfn
    constructor
    · intro hb
      simp [checkChange, hb]
    · intro hb
      simp [checkChange, hb]
  · intro hfn
    have hneg : ¬(state.lastFileName = filename) := fun hh => hfn hh.symm
    by_cases hb : uint8ArrayEquals state.bytes (computeNewBytes env state filename) <;>
      constructor <;> simp [checkChange, hneg, hb]

/-- Witness for C7 (amended): a no-op notification leaves the state
untouched and emits nothing; a filename-change notification with equal
bytes emits a file-change event. -/
theorem change_emit_gating_witness :
    checkChange cexEnvA { cexStateA with lastFileName := none } none
      = ({ cexStateA with lastFileName := none }, none)
    ∧ (checkChange cexEnvA cexStateA none).2 = some EventType.FileChange := by
  constructor
  · exact ((change_emit_gating cexEnvA { cexStateA with lastFileName := none } none).1
      rfl).1 (by decide)
  · exact ((change_emit_gating cexEnvA cexStateA none).2 (by decide)).1

/-- Counterexample for C8: on a notification for the new file `b`, the raw
bytes cached by `checkChange` are read at the stale offset 1 (`[89]`), not
the content of `b` from byte 0 (`[88, 89]`) — the offset reset happens
only after the read. -/
theorem stale_offset_cex :
    (checkChange cexEnvB cexStateB (some "b")).1.rawBytes = some [89]
    ∧ readFileContent (cexEnvB.fs "b") cexStateB.decoder none cexEnvB.tailLines = [88, 89] := by
  refine ⟨by decide, by decide⟩

/-- C8 (amended): when the notified filename differs from the recorded
one, `checkChange` resets the offset to unset — so the *next* read starts
from byte 0 — and records the new filename, but the read performed for
this very notification still used the previously recorded offset: the raw
byte cache, when it updates, holds `computeNewRawBytes` of the *old*
offset. -/
theorem offset_reset_after_read (env : CheckEnv) (state : WatchStateInternal)
    (filename : Option String) (h : state.lastFileName ≠ filename) :
    (checkChange env state filename).1.offset = none
    ∧ (checkChange env state filename).1.lastFileName = filename
    ∧ (uint8ArrayEquals state.bytes (computeNewBytes env state filename) = false →
        (checkChange env state filename).1.rawBytes = computeNewRawBytes env state filename)
    ∧ (uint8ArrayEquals state.bytes (computeNewBytes env state filename) = true →
        (checkChange env state filename).1.rawBytes = state.rawBytes) := by
  by_cases hb : uint8ArrayEquals state.bytes (computeNewBytes env state filename) <;>
    refine ⟨?_, ?_, ?_, ?_⟩ <;> simp [checkChange, h, hb]

/-- Witness for C8 (amended): on the concrete stale-offset state the
offset is cleared and the cached raw bytes are the stale-offset read. -/
theorem offset_reset_after_read_witness :
    (checkChange cexEnvB cexStateB (some "b")).1.offset = none
    ∧ (checkChange cexEnvB cexStateB (some "b")).1.rawBytes
        = computeNewRawBytes cexEnvB cexStateB (some "b") := by
  have h := offset_reset_after_read cexEnvB cexStateB (some "b") (by decide)
  exact ⟨h.1, h.2.2.1 (by decide)⟩

/-- Counterexample for C9: after an explicit stop the byte caches are NOT
discarded — a state query still reports the previously cached bytes
(though marked not running). -/
theorem stop_retains_caches_cex :
    (stopWatch cexStateC).1.bytes = some [65]
    ∧ (stopWatch cexStateC).1.rawBytes = some [66]
    ∧ (createWatchState (stopWatch cexStateC).1).running = false
    ∧ (createWatchState (stopWatch cexStateC).1).bytes = some [65] := by
  refine ⟨rfl, rfl, rfl, rfl⟩

/-- C9 (amended): an explicit stop of a running watch disposes the glob
watcher — cancelling both polling timers — clears the `watcher` field and
fires the Stop event, so a subsequent state query reports the watch as not
running; the raw and filtered byte caches, however, are retained and still
reported by state queries until the entry itself is removed. -/
theorem stop_teardown (state : WatchStateInternal) (w : SimpleGlobWatcher)
    (h : state.watcher = some w) :
    stopWatch state = ({ state with watcher := none }, some EventType.Stop)
    ∧ (w.dispose).fileTimer = none ∧ (w.dispose).globTimer = none
    ∧ (createWatchState (stopWatch state).1).running = false
    ∧ (createWatchState (stopWatch state).1).bytes = state.bytes
    ∧ (createWatchState (stopWatch state).1).rawBytes = state.rawBytes := by
  refine ⟨?_, rfl, rfl, ?_, ?_, ?_⟩ <;> simp [stopWatch, h, createWatchState]

/-- Witness for C9 (amended): stopping the concrete running watch clears
only the watcher and reports not-running. -/
theorem stop_teardown_witness :
    stopWatch cexStateC = ({ cexStateC with watcher := none }, some EventType.Stop)
    ∧ (createWatchState (stopWatch cexStateC).1).running = false := by
  have h := stop_teardown cexStateC { fileTimer := some 1, globTimer := some 2 } rfl
  exact ⟨h.1, h.2.2.2.1⟩
